import Mathlib

/-!
Shallow embedding of the realtime coordinator of `src/Server.js` (and the
`send-message` handler of the second source variant `src/unnamed/part_000`).

The coordinator keeps:
  * `activeCalls` — the `Map` from call channel to the `Set` of socket ids in
    that call room (`const activeCalls = new Map()`);
  * the persisted `calls` and `chats` collections (the Mongoose models);
  * socket.io room membership and the per-socket `userId` binding;
  * an append-only log of the events the server emitted (`io.to(...).emit`).

Handlers with an `await` on a persistence call are split into the segments the
JavaScript event loop actually runs atomically: the synchronous prefix up to
the `await`, and the continuation after it.  A scheduler action list picks
which pending continuation resumes next, which models every interleaving the
single-threaded event loop can produce.  Persistence failure (a rejected
promise that the handler `catch`es) is a boolean `persistOk` on each action.
-/

/-- JavaScript truthiness test used by the guards `if (!x) return` /
`if (!data?.field) return`: `undefined` (here `none`) and the empty string
are falsy. -/
def falsy : Option String → Bool
  | none => true
  | some s => s = ""

/-- JavaScript's `<` on strings: lexicographic comparison of the character
sequences. -/
def charListLt : List Char → List Char → Bool
  | [], [] => false
  | [], _ :: _ => true
  | _ :: _, [] => false
  | c :: cs, d :: ds => if c < d then true else if d < c then false else charListLt cs ds

/-- JS string comparison lifted to `String`. -/
def jsLt (a b : String) : Bool :=
  charListLt a.data b.data

/-- JS `[a, b].sort()` on a two-element array of strings: the default
comparator keeps the pair in order unless the second compares below the
first. -/
def sortPair (a b : String) : String × String :=
  if jsLt b a then (b, a) else (a, b)

/-- `[sender, receiver].sort().join("_")` — the conversation id computed in
the `send-message` handler and in `GET /messages/:u1/:u2`. -/
def conversationId (a b : String) : String :=
  (sortPair a b).1 ++ "_" ++ (sortPair a b).2

/-- A persisted chat record (the `Chat` model).  The `time` attribute is
assigned by the store (`default: Date.now`) and carries no information the
claims compare, so it is omitted. -/
structure ChatRec where
  conversationId : String
  sender : String
  receiver : String
  message : String
  deriving DecidableEq, Repr

/-- A persisted call record (the `Call` model).  `caller`, `receiver` and
`channel` may be absent (`undefined` at `Call.create`); `status` defaults to
`"ongoing"` in the schema. -/
structure CallRec where
  caller : Option String
  receiver : Option String
  channel : Option String
  status : String
  deriving DecidableEq, Repr

/-- One `io.to(room).emit(...)` (or `socket.emit`) performed by a handler. -/
inductive Emit where
  | callEnded (room : String)
  | newMessage (room : String) (msg : ChatRec)
  | incomingCall (room : String) (caller : Option String) (channel : Option String)
  | joinedCallRoom (sock : String)
  deriving DecidableEq, Repr

/-- Look a key up in an association list (a JS `Map`; keys are unique). -/
def lookupEntry (k : String) : List (String × List String) → Option (List String)
  | [] => none
  | p :: rest => if p.1 = k then some p.2 else lookupEntry k rest

/-- Overwrite the value stored under an existing key, leaving absent keys
absent (models mutating the `Set` obtained from `Map.get` in place). -/
def setEntry (k : String) (v : List String) : List (String × List String) → List (String × List String)
  | [] => []
  | p :: rest => if p.1 = k then (k, v) :: rest else p :: setEntry k v rest

/-- `Map.delete(k)` / dropping a room. -/
def deleteEntry (k : String) (l : List (String × List String)) : List (String × List String) :=
  l.filter (fun p => p.1 ≠ k)

/-- `Set.add` (JS sets ignore an element that is already present). -/
def insertSet (x : String) (l : List String) : List String :=
  if x ∈ l then l else l ++ [x]

/-- `Set.delete(x)` (`room.delete(socket.id)`); sets hold no duplicates, so
dropping every occurrence removes exactly the element. -/
def removeSock (x : String) (l : List String) : List String :=
  l.filter (fun y => y ≠ x)

/-- Insert under `k`, creating the entry when missing
(`if (!m.has(k)) m.set(k, new Set()); m.get(k).add(x)` — also `socket.join`,
where joining an already-joined room is a no-op). -/
def addToEntry (k : String) (x : String) : List (String × List String) → List (String × List String)
  | [] => [(k, [x])]
  | p :: rest => if p.1 = k then (k, insertSet x p.2) :: rest else p :: addToEntry k x rest

/-- `Call.updateMany({ channel, status: "ongoing" }, { $set: { status: "ended" } })`. -/
def updateMany (ch : String) (calls : List CallRec) : List CallRec :=
  calls.map fun r =>
    if r.channel = some ch ∧ r.status = "ongoing" then { r with status := "ended" } else r

/-- The coordinator's observable state: in-memory maps, persisted
collections, and the log of emitted events. -/
structure CoordState where
  activeCalls : List (String × List String)
  rooms : List (String × List String)
  socketUser : List (String × String)
  calls : List CallRec
  chats : List ChatRec
  emits : List Emit
  deriving DecidableEq, Repr

/-- Bind a socket's `userId` field (`socket.userId = room`): overwrite the
binding when present, create it otherwise. -/
def setUser (sock u : String) : List (String × String) → List (String × String)
  | [] => [(sock, u)]
  | p :: rest => if p.1 = sock then (sock, u) :: rest else p :: setUser sock u rest

/-- `socket.on("register")`: truthiness guard, `socket.join(room)`,
`socket.userId = room`. -/
def register (st : CoordState) (sockId : String) (userId : Option String) : CoordState :=
  if falsy userId then st
  else
    let room := userId.getD ""
    { st with rooms := addToEntry room sockId st.rooms,
              socketUser := setUser sockId room st.socketUser }

/-- Payload of a `send-message` event; each field may be absent. -/
structure MsgData where
  sender : Option String
  receiver : Option String
  message : Option String
  deriving DecidableEq, Repr

/-- `socket.on("send-message")` from `src/Server.js`: validate, compute the
conversation id, `await Chat.create`, then emit the stored record to sender's
and receiver's personal rooms.  A failed `Chat.create` (`persistOk = false`)
is caught and only logged: no record, no emits. -/
def sendMessage (st : CoordState) (data : Option MsgData) (persistOk : Bool) : CoordState :=
  match data with
  | none => st
  | some d =>
    if falsy d.sender || falsy d.receiver || falsy d.message then st
    else
      let sender := d.sender.getD ""
      let receiver := d.receiver.getD ""
      let cid := conversationId sender receiver
      if persistOk then
        let msg : ChatRec :=
          { conversationId := cid, sender := sender, receiver := receiver,
            message := (d.message.getD "").trim }
        { st with chats := st.chats ++ [msg],
                  emits := st.emits ++ [Emit.newMessage sender msg, Emit.newMessage receiver msg] }
      else st

/-- `socket.on("send-message")` from `src/unnamed/part_000`: identical control
flow (the extra `console.log` between `Chat.create` and the emits touches no
observable state). -/
def sendMessageAlt (st : CoordState) (data : Option MsgData) (persistOk : Bool) : CoordState :=
  match data with
  | none => st
  | some d =>
    if falsy d.sender || falsy d.receiver || falsy d.message then st
    else
      let sender := d.sender.getD ""
      let receiver := d.receiver.getD ""
      let cid := conversationId sender receiver
      if persistOk then
        let msg : ChatRec :=
          { conversationId := cid, sender := sender, receiver := receiver,
            message := (d.message.getD "").trim }
        { st with chats := st.chats ++ [msg],
                  emits := st.emits ++ [Emit.newMessage sender msg, Emit.newMessage receiver msg] }
      else st

/-- `socket.on("call-user")`: no validation — `Call.create({caller: from,
receiver: to, channel})` runs first (status defaulting to `"ongoing"`), then
`io.to(to.toString()).emit("incoming-call", ...)`.  When `to` is `undefined`,
`to.toString()` throws after the record is already persisted, and the `catch`
swallows it; when `Call.create` itself rejects, nothing happens. -/
def callUser (st : CoordState) (toId fromId channel : Option String) (persistOk : Bool) : CoordState :=
  if persistOk then
    let stA := { st with calls := st.calls ++
      [{ caller := fromId, receiver := toId, channel := channel, status := "ongoing" }] }
    match toId with
    | none => stA
    | some t => { stA with emits := stA.emits ++ [Emit.incomingCall t fromId channel] }
  else st

/-- A continuation left pending at an `await` on a persistence call. -/
inductive Pending where
  /-- `end-call` after `await Call.updateMany`: emit `call-ended` to the call
  room and `activeCalls.delete(channel)`. -/
  | endCall2 (ch : String)
  /-- `disconnect` after `await Call.updateMany`: `activeCalls.delete(channel)`. -/
  | disc2 (ch : String)
  deriving DecidableEq, Repr

/-- `socket.on("end-call")` up to its suspension point: the truthiness guard,
then the `await Call.updateMany` inside `try { } catch {}` (the persistence
effect lands during the suspension; a rejection is swallowed either way). -/
def endCallSeg1 (st : CoordState) (channel : Option String) (persistOk : Bool) :
    CoordState × Option Pending :=
  if falsy channel then (st, none)
  else
    let ch := channel.getD ""
    let stA := if persistOk then { st with calls := updateMany ch st.calls } else st
    (stA, some (Pending.endCall2 ch))

/-- `socket.on("disconnect")` up to its suspension point: read
`socket.callChannel`, drop the socket from the channel's membership set, and
if at most one member remains emit `call-ended` and start
`await Call.updateMany` (suspending); otherwise finish synchronously. -/
def discSeg1 (st : CoordState) (sockId : String) (callChannel : Option String)
    (persistOk : Bool) : CoordState × Option Pending :=
  if falsy callChannel then (st, none)
  else
    let ch := callChannel.getD ""
    match lookupEntry ch st.activeCalls with
    | none => (st, none)
    | some room =>
      let room2 := removeSock sockId room
      let stA := { st with activeCalls := setEntry ch room2 st.activeCalls }
      if room2.length ≤ 1 then
        let stB := { stA with emits := stA.emits ++ [Emit.callEnded ch] }
        let stC := if persistOk then { stB with calls := updateMany ch stB.calls } else stB
        (stC, some (Pending.disc2 ch))
      else (stA, none)

/-- Run a pending continuation. -/
def runTask (st : CoordState) : Pending → CoordState
  | Pending.endCall2 ch =>
      { st with emits := st.emits ++ [Emit.callEnded ch],
                activeCalls := deleteEntry ch st.activeCalls }
  | Pending.disc2 ch =>
      { st with activeCalls := deleteEntry ch st.activeCalls }

/-- The whole `end-call` handler run to completion with no interleaving. -/
def endCallRun (st : CoordState) (channel : Option String) (persistOk : Bool) : CoordState :=
  match endCallSeg1 st channel persistOk with
  | (stA, none) => stA
  | (stA, some t) => runTask stA t

/-- The whole `disconnect` handler run to completion with no interleaving. -/
def disconnectRun (st : CoordState) (sockId : String) (callChannel : Option String)
    (persistOk : Bool) : CoordState :=
  match discSeg1 st sockId callChannel persistOk with
  | (stA, none) => stA
  | (stA, some t) => runTask stA t

/-- A scheduler action: start one of the termination triggers, or resume a
pending continuation (modelling the order in which the awaited persistence
calls complete). -/
inductive Act where
  | endCallEv (channel : Option String) (persistOk : Bool)
  | discEv (sockId : String) (callChannel : Option String) (persistOk : Bool)
  | resume (i : Nat)

/-- Event-loop configuration: coordinator state plus pending continuations. -/
abbrev Sys := CoordState × List Pending

/-- One scheduler step. -/
def step (sys : Sys) : Act → Sys
  | Act.endCallEv ch ok =>
      let (st, t?) := endCallSeg1 sys.1 ch ok
      (st, sys.2 ++ t?.toList)
  | Act.discEv s cc ok =>
      let (st, t?) := discSeg1 sys.1 s cc ok
      (st, sys.2 ++ t?.toList)
  | Act.resume i =>
      match sys.2[i]? with
      | none => sys
      | some t => (runTask sys.1 t, sys.2.eraseIdx i)

/-- Run a whole interleaving. -/
def run (sys : Sys) (acts : List Act) : Sys :=
  acts.foldl step sys

/-- Start state of the racing-termination scenario: sockets `A` and `B` are in
the call room of channel `ch`, whose call record is still `"ongoing"`. -/
def cexInit : Sys :=
  (⟨[("ch", ["A", "B"])], [], [], [⟨some "u1", some "u2", some "ch", "ongoing"⟩], [], []⟩, [])

/-- Interleaving in which `A`'s disconnect reaches its `await` after emitting
`call-ended`, the explicit `end-call` then starts and suspends, the
`end-call` continuation resumes first, and the disconnect continuation
resumes last. -/
def cexActs : List Act :=
  [Act.discEv "A" (some "ch") true,
   Act.endCallEv (some "ch") true,
   Act.resume 1,
   Act.resume 0]

/-- The socket's bound identity (`socket.userId`). -/
def lookupUser (sock : String) : List (String × String) → Option String
  | [] => none
  | p :: rest => if p.1 = sock then some p.2 else lookupUser sock rest

/-! ### Helper lemmas about the JS string order -/

theorem charListLt_asymm (l m : List Char) (h : charListLt l m = true) :
    charListLt m l = false := by
  induction l generalizing m with
  | nil =>
    cases m with
    | nil => simp [charListLt] at h
    | cons d ds => simp [charListLt]
  | cons c cs ih =>
    cases m with
    | nil => simp [charListLt] at h
    | cons d ds =>
      simp only [charListLt] at h ⊢
      by_cases h1 : c < d
      · have h2 : ¬ d < c := lt_asymm h1
        simp [h1, h2]
      · by_cases h2 : d < c
        · simp [h1, h2] at h
        · simp [h1, h2] at h ⊢
          exact ih ds h

theorem charListLt_antisymm (l m : List Char) (h1 : charListLt l m = false)
    (h2 : charListLt m l = false) : l = m := by
  induction l generalizing m with
  | nil =>
    cases m with
    | nil => rfl
    | cons d ds => simp [charListLt] at h1
  | cons c cs ih =>
    cases m with
    | nil => simp [charListLt] at h2
    | cons d ds =>
      by_cases hcd : c < d
      · simp [charListLt, hcd] at h1
      · by_cases hdc : d < c
        · simp [charListLt, hdc] at h2
        · have hce : c = d := le_antisymm (not_lt.mp hdc) (not_lt.mp hcd)
          simp only [charListLt, hcd, hdc, if_false] at h1 h2
          rw [hce, ih ds h1 h2]

theorem sortPair_comm (a b : String) : sortPair a b = sortPair b a := by
  unfold sortPair jsLt
  by_cases hba : charListLt b.data a.data = true
  · have hab : charListLt a.data b.data = false := charListLt_asymm _ _ hba
    simp [hba, hab]
  · have hba' : charListLt b.data a.data = false := by
      cases hh : charListLt b.data a.data
      · rfl
      · exact absurd hh hba
    by_cases hab : charListLt a.data b.data = true
    · simp [hba', hab]
    · have hab' : charListLt a.data b.data = false := by
        cases hh : charListLt a.data b.data
        · rfl
        · exact absurd hh hab
      have hdata : b.data = a.data := charListLt_antisymm _ _ hba' hab'
      have : b = a := by
        cases a; cases b
        exact congrArg String.mk hdata
      simp [hba', hab', this]

example : conversationId "b" "a" = "a_b" := by decide
example : conversationId "a" "b" = "a_b" := by decide

/-! ### Claim theorems -/

/-- C4: for every two identities `A` and `B`, the conversation id computed
when `A` sends to `B` equals the conversation id computed when `B` sends to
`A`: the sorted join of the two identities is a pure function of the
unordered pair. -/
theorem conversationId_comm (a b : String) : conversationId a b = conversationId b a := by
  unfold conversationId
  rw [sortPair_comm]

/-- C10: the `send-message` handlers of `src/Server.js` and
`src/unnamed/part_000` are behaviourally equivalent: on every input event and
persistence outcome they produce the same state (same rejections, same stored
record, same deliveries). -/
theorem sendMessage_variants_equiv (st : CoordState) (data : Option MsgData)
    (persistOk : Bool) : sendMessageAlt st data persistOk = sendMessage st data persistOk := rfl

/-- C5: a `send-message` event whose sender, receiver or body is empty or
absent is rejected: the state is unchanged — nothing persisted, nothing
delivered, no error emitted. -/
theorem sendMessage_rejects_invalid (st : CoordState) (data : Option MsgData)
    (persistOk : Bool)
    (h : data = none ∨ ∃ d, data = some d ∧
      (falsy d.sender ∨ falsy d.receiver ∨ falsy d.message)) :
    sendMessage st data persistOk = st := by
  rcases h with h | ⟨d, rfl, hf⟩
  · rw [h]; rfl
  · have : (falsy d.sender || falsy d.receiver || falsy d.message) = true := by
      rcases hf with hf | hf | hf <;> simp [hf]
    simp [sendMessage, this]

/-- Witness for C5 at a concrete input: a payload with a present sender and
receiver but an empty body is dropped without any state change. -/
theorem sendMessage_rejects_invalid_witness :
    sendMessage ⟨[], [], [], [], [], []⟩
      (some ⟨some "alice", some "bob", some ""⟩) true = ⟨[], [], [], [], [], []⟩ :=
  sendMessage_rejects_invalid _ _ _ (Or.inr ⟨_, rfl, Or.inr (Or.inr (by decide))⟩)

/-! ### Helper lemmas about the map and collection operations -/

theorem updateMany_no_ongoing (ch : String) (calls : List CallRec)
    (h : ∀ r ∈ calls, r.channel = some ch → r.status ≠ "ongoing") :
    updateMany ch calls = calls := by
  induction calls with
  | nil => rfl
  | cons r rest ih =>
    have hr : ¬ (r.channel = some ch ∧ r.status = "ongoing") := fun hc =>
      h r (List.mem_cons_self r rest) hc.1 hc.2
    have hrest := ih (fun q hq => h q (List.mem_cons_of_mem r hq))
    simp only [updateMany, List.map_cons] at hrest ⊢
    rw [if_neg hr, hrest]

theorem updateMany_preserves_ended (ch : String) (l : List CallRec) (i : Nat) (r : CallRec)
    (h : l[i]? = some r) (hs : r.status = "ended") : (updateMany ch l)[i]? = some r := by
  have hne : ¬ (r.channel = some ch ∧ r.status = "ongoing") := by
    rintro ⟨-, h2⟩
    rw [hs] at h2
    exact absurd h2 (by decide)
  simp only [updateMany, List.getElem?_map, h, Option.map_some']
  rw [if_neg hne]

theorem deleteEntry_of_lookup_none (k : String) (l : List (String × List String))
    (h : lookupEntry k l = none) : deleteEntry k l = l := by
  induction l with
  | nil => rfl
  | cons p rest ih =>
    by_cases hp : p.1 = k
    · simp [lookupEntry, hp] at h
    · simp only [lookupEntry, hp, if_false] at h
      simp [deleteEntry, List.filter_cons, hp] at ih ⊢
      exact ih h

theorem lookupEntry_deleteEntry_self (k : String) (l : List (String × List String)) :
    lookupEntry k (deleteEntry k l) = none := by
  induction l with
  | nil => rfl
  | cons p rest ih =>
    by_cases hp : p.1 = k
    · simpa [deleteEntry, List.filter_cons, hp] using ih
    · simpa [deleteEntry, List.filter_cons, lookupEntry, hp] using ih

theorem lookupEntry_deleteEntry_none (c k : String) (l : List (String × List String))
    (h : lookupEntry c l = none) : lookupEntry c (deleteEntry k l) = none := by
  induction l with
  | nil => rfl
  | cons p rest ih =>
    by_cases hp : p.1 = c
    · simp [lookupEntry, hp] at h
    · simp only [lookupEntry, hp, if_false] at h
      by_cases hk : p.1 = k
      · simpa [deleteEntry, List.filter_cons, hk] using ih h
      · simpa [deleteEntry, List.filter_cons, lookupEntry, hk, hp] using ih h

theorem lookupEntry_setEntry_none (c k : String) (v : List String)
    (l : List (String × List String)) (h : lookupEntry c l = none) :
    lookupEntry c (setEntry k v l) = none := by
  induction l with
  | nil => rfl
  | cons p rest ih =>
    by_cases hp : p.1 = c
    · simp [lookupEntry, hp] at h
    · simp only [lookupEntry, hp, if_false] at h
      by_cases hk : p.1 = k
      · have : k ≠ c := hk ▸ hp
        simpa [setEntry, hk, lookupEntry, this] using h
      · simpa [setEntry, hk, lookupEntry, hp] using ih h

theorem step_calls_ended (sys : Sys) (a : Act) (i : Nat) (r : CallRec)
    (h : sys.1.calls[i]? = some r) (hs : r.status = "ended") :
    (step sys a).1.calls[i]? = some r := by
  cases a with
  | endCallEv ch ok =>
    by_cases hch : falsy ch = true
    · simpa [step, endCallSeg1, hch] using h
    · cases ok
      · simpa [step, endCallSeg1, hch] using h
      · simpa [step, endCallSeg1, hch] using
          updateMany_preserves_ended (ch.getD "") sys.1.calls i r h hs
  | discEv s cc ok =>
    by_cases hcc : falsy cc = true
    · simpa [step, discSeg1, hcc] using h
    · cases hl : lookupEntry (cc.getD "") sys.1.activeCalls with
      | none => simpa [step, discSeg1, hcc, hl] using h
      | some room =>
        by_cases hsize : (removeSock s room).length ≤ 1
        · cases ok
          · simpa [step, discSeg1, hcc, hl, hsize] using h
          · simpa [step, discSeg1, hcc, hl, hsize] using
              updateMany_preserves_ended (cc.getD "") sys.1.calls i r h hs
        · simpa [step, discSeg1, hcc, hl, hsize] using h
  | resume j =>
    cases hp : sys.2[j]? with
    | none => simpa [step, hp] using h
    | some t => cases t <;> simpa [step, hp, runTask] using h

theorem step_active_none (sys : Sys) (a : Act) (c : String)
    (h : lookupEntry c sys.1.activeCalls = none) :
    lookupEntry c (step sys a).1.activeCalls = none := by
  cases a with
  | endCallEv ch ok =>
    by_cases hch : falsy ch = true
    · simpa [step, endCallSeg1, hch] using h
    · cases ok <;> simpa [step, endCallSeg1, hch] using h
  | discEv s cc ok =>
    by_cases hcc : falsy cc = true
    · simpa [step, discSeg1, hcc] using h
    · cases hl : lookupEntry (cc.getD "") sys.1.activeCalls with
      | none => simpa [step, discSeg1, hcc, hl] using h
      | some room =>
        by_cases hsize : (removeSock s room).length ≤ 1
        · cases ok <;>
            simpa [step, discSeg1, hcc, hl, hsize] using
              lookupEntry_setEntry_none c (cc.getD "") (removeSock s room) sys.1.activeCalls h
        · simpa [step, discSeg1, hcc, hl, hsize] using
            lookupEntry_setEntry_none c (cc.getD "") (removeSock s room) sys.1.activeCalls h
  | resume j =>
    cases hp : sys.2[j]? with
    | none => simpa [step, hp] using h
    | some t =>
      cases t with
      | endCall2 ch =>
        simpa [step, hp, runTask] using
          lookupEntry_deleteEntry_none c ch sys.1.activeCalls h
      | disc2 ch =>
        simpa [step, hp, runTask] using
          lookupEntry_deleteEntry_none c ch sys.1.activeCalls h

theorem insertSet_idem (x : String) (l : List String) :
    insertSet x (insertSet x l) = insertSet x l := by
  unfold insertSet
  by_cases h : x ∈ l
  · simp [h]
  · simp [h]

theorem addToEntry_idem (k x : String) (l : List (String × List String)) :
    addToEntry k x (addToEntry k x l) = addToEntry k x l := by
  induction l with
  | nil => simp [addToEntry, insertSet_idem, insertSet]
  | cons p rest ih =>
    by_cases h : p.1 = k
    · simp [addToEntry, h, insertSet_idem]
    · simp [addToEntry, h, ih]

theorem setUser_idem (sock u : String) (l : List (String × String)) :
    setUser sock u (setUser sock u l) = setUser sock u l := by
  induction l with
  | nil => simp [setUser]
  | cons p rest ih =>
    by_cases h : p.1 = sock
    · simp [setUser, h]
    · simp [setUser, h, ih]

/-- C1 (amended): across any interleaving of end-call events, disconnect
events and resumptions of their pending persistence continuations, the
effectful parts of termination are at-most-once — a call record whose status
is already `"ended"` is never modified again, and a channel absent from the
in-memory `activeCalls` map is never re-created — but the `call-ended`
broadcast itself is at-most-once per trigger, not per channel. -/
theorem termination_effect_at_most_once (sys : Sys) (acts : List Act) :
    (∀ (i : Nat) (r : CallRec), sys.1.calls[i]? = some r → r.status = "ended" →
        (run sys acts).1.calls[i]? = some r)
    ∧ (∀ c, lookupEntry c sys.1.activeCalls = none →
        lookupEntry c (run sys acts).1.activeCalls = none) := by
  induction acts generalizing sys with
  | nil => exact ⟨fun i r h _ => h, fun c h => h⟩
  | cons a rest ih =>
    refine ⟨fun i r h hs => ?_, fun c h => ?_⟩
    · exact (ih (step sys a)).1 i r (step_calls_ended sys a i r h hs) hs
    · exact (ih (step sys a)).2 c (step_active_none sys a c h)

/-- Witness for the amended C1 at a concrete input: a record already
`"ended"` survives an explicit end-call unchanged, and a channel never in the
map stays absent. -/
theorem termination_effect_at_most_once_witness :
    (run (⟨[], [], [], [⟨some "u", some "v", some "ch", "ended"⟩], [], []⟩, [])
        [Act.endCallEv (some "ch") true, Act.resume 0]).1.calls[0]?
      = some ⟨some "u", some "v", some "ch", "ended"⟩
    ∧ lookupEntry "other"
        (run (⟨[], [], [], [⟨some "u", some "v", some "ch", "ended"⟩], [], []⟩, [])
          [Act.endCallEv (some "ch") true, Act.resume 0]).1.activeCalls = none :=
  ⟨(termination_effect_at_most_once
      (⟨[], [], [], [⟨some "u", some "v", some "ch", "ended"⟩], [], []⟩, [])
      [Act.endCallEv (some "ch") true, Act.resume 0]).1 0
      ⟨some "u", some "v", some "ch", "ended"⟩ (by decide) (by decide),
   (termination_effect_at_most_once
      (⟨[], [], [], [⟨some "u", some "v", some "ch", "ended"⟩], [], []⟩, [])
      [Act.endCallEv (some "ch") true, Act.resume 0]).2 "other" (by decide)⟩

/-- C1 (counterexample): in the interleaving `cexActs` from `cexInit` — socket
`A`'s disconnect drops the room to one member, emits `call-ended` and suspends
at its `await`; the explicit end-call then runs and also emits — the
`call-ended` broadcast to channel `"ch"` is performed twice, once by each
trigger (once after the first action alone, twice after the full run), so two
concurrent triggers each independently perform the broadcast/persist
sequence. -/
theorem termination_broadcast_twice_cex :
    List.count (Emit.callEnded "ch") (run cexInit cexActs).1.emits = 2
    ∧ List.count (Emit.callEnded "ch") (run cexInit (cexActs.take 1)).1.emits = 1 := by
  decide

/-- C2: a disconnect of a connection that belongs to a call room removes it
from that room2s membership set; if at most one member remains the handler
performs exactly the termination `endCall` would perform from the
post-removal state (call-ended broadcast, persisted status update, membership
discarded), and if at least two members remain it performs no termination at
all — only the removal. -/
theorem disconnect_membership_and_termination (st : CoordState) (sockId ch : String)
    (room : List String) (ok : Bool) (hch : ch ≠ "")
    (hroom : lookupEntry ch st.activeCalls = some room) :
    ((removeSock sockId room).length ≤ 1 →
      disconnectRun st sockId (some ch) ok =
        endCallRun
          { st with activeCalls := setEntry ch (removeSock sockId room) st.activeCalls }
          (some ch) ok)
    ∧ (2 ≤ (removeSock sockId room).length →
      disconnectRun st sockId (some ch) ok =
        { st with activeCalls := setEntry ch (removeSock sockId room) st.activeCalls }) := by
  have hf : falsy (some ch) = false := by simp [falsy, hch]
  constructor
  · intro hsize
    cases ok <;>
      simp [disconnectRun, discSeg1, endCallRun, endCallSeg1, runTask, hf, hroom, hsize]
  · intro hsize
    have hns : ¬ ((removeSock sockId room).length ≤ 1) := by omega
    simp [disconnectRun, discSeg1, hf, hroom, hns]

/-- Witness for C2 at a concrete input: with sockets `A`, `B` in channel
`"ch"`, `A`'s disconnect leaves one member and terminates exactly as an
explicit end-call from the post-removal state would. -/
theorem disconnect_membership_and_termination_witness :
    ((removeSock "A" ["A", "B"]).length ≤ 1 →
      disconnectRun ⟨[("ch", ["A", "B"])], [], [],
          [⟨some "u1", some "u2", some "ch", "ongoing"⟩], [], []⟩ "A" (some "ch") true =
        endCallRun
          { (⟨[("ch", ["A", "B"])], [], [],
              [⟨some "u1", some "u2", some "ch", "ongoing"⟩], [], []⟩ : CoordState) with
            activeCalls := setEntry "ch" (removeSock "A" ["A", "B"]) [("ch", ["A", "B"])] }
          (some "ch") true)
    ∧ (2 ≤ (removeSock "A" ["A", "B"]).length →
      disconnectRun ⟨[("ch", ["A", "B"])], [], [],
          [⟨some "u1", some "u2", some "ch", "ongoing"⟩], [], []⟩ "A" (some "ch") true =
        { (⟨[("ch", ["A", "B"])], [], [],
            [⟨some "u1", some "u2", some "ch", "ongoing"⟩], [], []⟩ : CoordState) with
          activeCalls := setEntry "ch" (removeSock "A" ["A", "B"]) [("ch", ["A", "B"])] }) :=
  disconnect_membership_and_termination _ "A" "ch" ["A", "B"] true (by decide) (by decide)

/-- C3: `endCall` on a channel whose session is already ended — every
persisted record for the channel has left status `"ongoing"` and the
channel's membership entry is already absent — changes neither the persisted
records nor the membership state; it only re-broadcasts `call-ended` to the
call room. -/
theorem endCall_idempotent (st : CoordState) (ch : String) (hch : ch ≠ "")
    (hcalls : ∀ r ∈ st.calls, r.channel = some ch → r.status ≠ "ongoing")
    (hmem : lookupEntry ch st.activeCalls = none) :
    endCallRun st (some ch) true = { st with emits := st.emits ++ [Emit.callEnded ch] } := by
  have hf : falsy (some ch) = false := by simp [falsy, hch]
  have h1 : updateMany ch st.calls = st.calls := updateMany_no_ongoing ch st.calls hcalls
  have h2 : deleteEntry ch st.activeCalls = st.activeCalls :=
    deleteEntry_of_lookup_none ch st.activeCalls hmem
  simp [endCallRun, endCallSeg1, runTask, hf, h1, h2]

/-- Witness for C3 at a concrete input: re-ending an already-ended channel
only re-broadcasts. -/
theorem endCall_idempotent_witness :
    endCallRun ⟨[("other", ["X"])], [], [],
        [⟨some "u1", some "u2", some "ch", "ended"⟩], [], []⟩ (some "ch") true =
      { (⟨[("other", ["X"])], [], [],
          [⟨some "u1", some "u2", some "ch", "ended"⟩], [], []⟩ : CoordState) with
        emits := ([] : List Emit) ++ [Emit.callEnded "ch"] } :=
  endCall_idempotent _ "ch" (by decide) (by decide) (by decide)

/-- C6: for a valid `send-message` event, the `new-message` deliveries to the
sender's and receiver's personal rooms carry exactly the record that was
persisted and happen only in the successful-persistence run; when persistence
fails the state is unchanged — no delivery to either room and nothing
broadcast. -/
theorem sendMessage_delivery_after_persist (st : CoordState) (d : MsgData)
    (hv : (falsy d.sender || falsy d.receiver || falsy d.message) = false) :
    sendMessage st (some d) false = st
    ∧ ∃ msg : ChatRec,
        (sendMessage st (some d) true).chats = st.chats ++ [msg]
        ∧ (sendMessage st (some d) true).emits =
            st.emits ++ [Emit.newMessage (d.sender.getD "") msg,
                         Emit.newMessage (d.receiver.getD "") msg] := by
  refine ⟨by simp [sendMessage, hv],
    ⟨{ conversationId := conversationId (d.sender.getD "") (d.receiver.getD ""),
       sender := d.sender.getD "", receiver := d.receiver.getD "",
       message := (d.message.getD "").trim }, ?_, ?_⟩⟩ <;>
  simp [sendMessage, hv]

/-- Witness for C6 at a concrete input. -/
theorem sendMessage_delivery_after_persist_witness :
    sendMessage ⟨[], [], [], [], [], []⟩ (some ⟨some "a", some "b", some "hi"⟩) false =
      ⟨[], [], [], [], [], []⟩
    ∧ ∃ msg : ChatRec,
        (sendMessage ⟨[], [], [], [], [], []⟩ (some ⟨some "a", some "b", some "hi"⟩) true).chats
          = ([] : List ChatRec) ++ [msg]
        ∧ (sendMessage ⟨[], [], [], [], [], []⟩ (some ⟨some "a", some "b", some "hi"⟩) true).emits
          = ([] : List Emit) ++ [Emit.newMessage ((some "a").getD "") msg,
                                 Emit.newMessage ((some "b").getD "") msg] :=
  sendMessage_delivery_after_persist _ _ (by decide)

/-- C7: on both termination paths a persistence failure (`persistOk = false`)
does not block the live teardown: the `call-ended` broadcast is still
performed, the channel's membership entry is still discarded, and the
persisted records are simply left as they were. -/
theorem termination_persist_failure_nonblocking (st : CoordState) (ch sockId : String)
    (room : List String) (hch : ch ≠ "")
    (hroom : lookupEntry ch st.activeCalls = some room)
    (hsize : (removeSock sockId room).length ≤ 1) :
    ((endCallRun st (some ch) false).emits = st.emits ++ [Emit.callEnded ch]
      ∧ lookupEntry ch (endCallRun st (some ch) false).activeCalls = none
      ∧ (endCallRun st (some ch) false).calls = st.calls)
    ∧ ((disconnectRun st sockId (some ch) false).emits = st.emits ++ [Emit.callEnded ch]
      ∧ lookupEntry ch (disconnectRun st sockId (some ch) false).activeCalls = none
      ∧ (disconnectRun st sockId (some ch) false).calls = st.calls) := by
  have hf : falsy (some ch) = false := by simp [falsy, hch]
  refine ⟨⟨?_, ?_, ?_⟩, ⟨?_, ?_, ?_⟩⟩ <;>
    simp [endCallRun, endCallSeg1, disconnectRun, discSeg1, runTask, hf, hroom, hsize,
      lookupEntry_deleteEntry_self]

/-- Witness for C7 at a concrete input. -/
theorem termination_persist_failure_nonblocking_witness :
    ((endCallRun ⟨[("ch", ["A", "B"])], [], [],
          [⟨some "u1", some "u2", some "ch", "ongoing"⟩], [], []⟩ (some "ch") false).emits
        = ([] : List Emit) ++ [Emit.callEnded "ch"]
      ∧ lookupEntry "ch" (endCallRun ⟨[("ch", ["A", "B"])], [], [],
          [⟨some "u1", some "u2", some "ch", "ongoing"⟩], [], []⟩ (some "ch") false).activeCalls
        = none
      ∧ (endCallRun ⟨[("ch", ["A", "B"])], [], [],
          [⟨some "u1", some "u2", some "ch", "ongoing"⟩], [], []⟩ (some "ch") false).calls
        = [⟨some "u1", some "u2", some "ch", "ongoing"⟩])
    ∧ ((disconnectRun ⟨[("ch", ["A", "B"])], [], [],
          [⟨some "u1", some "u2", some "ch", "ongoing"⟩], [], []⟩ "A" (some "ch") false).emits
        = ([] : List Emit) ++ [Emit.callEnded "ch"]
      ∧ lookupEntry "ch" (disconnectRun ⟨[("ch", ["A", "B"])], [], [],
          [⟨some "u1", some "u2", some "ch", "ongoing"⟩], [], []⟩ "A" (some "ch") false).activeCalls
        = none
      ∧ (disconnectRun ⟨[("ch", ["A", "B"])], [], [],
          [⟨some "u1", some "u2", some "ch", "ongoing"⟩], [], []⟩ "A" (some "ch") false).calls
        = [⟨some "u1", some "u2", some "ch", "ongoing"⟩]) :=
  termination_persist_failure_nonblocking _ "ch" "A" ["A", "B"] (by decide) (by decide)
    (by decide)

/-- C8: registering the same connection a second time under the same identity
leaves the personal room2s membership size unchanged (the connection is not
added twice) and leaves the connection's bound identity unchanged. -/
theorem register_idempotent (st : CoordState) (sockId : String) (u : Option String)
    (h : falsy u = false) :
    (lookupEntry (u.getD "") (register (register st sockId u) sockId u).rooms).map
        List.length
      = (lookupEntry (u.getD "") (register st sockId u).rooms).map List.length
    ∧ lookupUser sockId (register (register st sockId u) sockId u).socketUser
      = lookupUser sockId (register st sockId u).socketUser := by
  have key : register (register st sockId u) sockId u = register st sockId u := by
    simp [register, h, addToEntry_idem, setUser_idem]
  rw [key]
  exact ⟨rfl, rfl⟩

/-- Witness for C8 at a concrete input. -/
theorem register_idempotent_witness :
    (lookupEntry ((some "alice").getD "")
        (register (register ⟨[], [], [], [], [], []⟩ "s1" (some "alice")) "s1"
          (some "alice")).rooms).map List.length
      = (lookupEntry ((some "alice").getD "")
          (register ⟨[], [], [], [], [], []⟩ "s1" (some "alice")).rooms).map List.length
    ∧ lookupUser "s1"
        (register (register ⟨[], [], [], [], [], []⟩ "s1" (some "alice")) "s1"
          (some "alice")).socketUser
      = lookupUser "s1" (register ⟨[], [], [], [], [], []⟩ "s1" (some "alice")).socketUser :=
  register_idempotent ⟨[], [], [], [], [], []⟩ "s1" (some "alice") (by decide)

/-- C9: the `call-user` handler validates nothing — even when `to`, `from` or
`channel` is empty or absent, a call record with exactly those values and the
schema-default status `"ongoing"` is persisted before the incoming-call
notification is attempted (when `to` is absent, the notification step itself
throws after persistence and is swallowed by the catch). -/
theorem callUser_no_validation (st : CoordState) (toId fromId channel : Option String)
    (h : falsy toId = true ∨ falsy fromId = true ∨ falsy channel = true) :
    (callUser st toId fromId channel true).calls
      = st.calls ++ [⟨fromId, toId, channel, "ongoing"⟩] := by
  cases toId <;> simp [callUser]

/-- Witness for C9 at a concrete input: an event with empty `to`, absent
`from` and absent `channel` still persists the degenerate record. -/
theorem callUser_no_validation_witness :
    (callUser ⟨[], [], [], [], [], []⟩ (some "") none none true).calls
      = ([] : List CallRec) ++ [⟨none, some "", none, "ongoing"⟩] :=
  callUser_no_validation ⟨[], [], [], [], [], []⟩ (some "") none none
    (Or.inl (by decide))
